import Mathlib

/-!
# Hit-scan weapon and replicated health: a verification development

Shallow embedding of `HealthComponent.cpp`, `Weapon.cpp` / `Weapon.h` and the
weapon entry points of `MyProjectCharacter.cpp`.

Conventions of the embedding:

* `float` values are exact rationals (`ℚ`): rounding, infinities and NaN are
  outside the model.
* Member functions become pure functions from the object state (and an
  explicit environment for what they read from the world) to the new state and
  the list of calls they make on collaborators.
* Engine services the code calls (`FMath::Clamp`, `FMath::Max`, the world timer
  manager) are embedded after their engine definitions and documentation.
* What a function reads from the world (clock, random draws, the ray cast, the
  pose of the owner) is an explicit environment argument.
* The on-screen debug output of the `print` macro is not part of the model.
-/

namespace FMath

/-- Engine `FMath::Clamp(X, Min, Max)`: `X < Min ? Min : (X < Max ? X : Max)`.
For `Min ≤ Max` this is `max Min (min X Max)` (`FMath.Clamp_eq_max_min`). -/
def Clamp (X Min Max : ℚ) : ℚ :=
  if X < Min then Min else if X < Max then X else Max

/-- Engine `FMath::Max(A, B)`: `(B < A) ? A : B`. -/
def Max (A B : ℚ) : ℚ :=
  if B < A then A else B

end FMath

/-- Engine `ENetRole`, in the order of the engine's enumeration. -/
inductive ENetRole where
  | ROLE_None
  | ROLE_SimulatedProxy
  | ROLE_AutonomousProxy
  | ROLE_Authority
  deriving DecidableEq, Repr

/-- Numeric value of a role, used by the comparisons `<` and `==` on roles. -/
def ENetRole.toNat : ENetRole → Nat
  | .ROLE_None => 0
  | .ROLE_SimulatedProxy => 1
  | .ROLE_AutonomousProxy => 2
  | .ROLE_Authority => 3

/-! ## HealthComponent.cpp -/

/-- Payload of one `OnHealthChanged.Broadcast(this, Health, HealthDelta,
DamageType, InstigatedBy, DamageCauser)`; object pointers are identifiers,
`none` is `nullptr`. -/
structure FOnHealthChanged where
  Health : ℚ
  HealthDelta : ℚ
  DamageType : Option Nat
  InstigatedBy : Option Nat
  DamageCauser : Option Nat
  deriving DecidableEq, Repr

/-- Members of `UHealthComponent` used by `HealthComponent.cpp`.
`bBound` records whether `HandleTakeAnyDamage` has been added to the owner's
`OnTakeAnyDamage` delegate. -/
structure UHealthComponent where
  DefaultHealth : ℚ
  Health : ℚ
  bIsDead : Bool
  bBound : Bool
  deriving DecidableEq, Repr

namespace UHealthComponent

/-- Constructor: `DefaultHealth = 100.0f; Health = 100.0f;`. The initial value
of `bIsDead` comes from the class declaration and is a parameter. -/
def construct (isDead : Bool) : UHealthComponent :=
  { DefaultHealth := 100, Health := 100, bIsDead := isDead, bBound := false }

/-- Embeds `UHealthComponent::BeginPlay`. `ownerRole` is `none` when `GetOwner()` is
null and the owner's local role otherwise. -/
def BeginPlay (c : UHealthComponent) (ownerRole : Option ENetRole) : UHealthComponent :=
  let c1 := { c with Health := c.DefaultHealth }
  match ownerRole with
  | some r => if r = ENetRole.ROLE_Authority then { c1 with bBound := true } else c1
  | none => c1

/-- Embeds `UHealthComponent::OnRep_Health(OldHealth)`: broadcasts, changes nothing. -/
def OnRep_Health (c : UHealthComponent) (OldHealth : ℚ) :
    UHealthComponent × List FOnHealthChanged :=
  (c, [{ Health := c.Health, HealthDelta := c.Health - OldHealth,
         DamageType := none, InstigatedBy := none, DamageCauser := none }])

/-- Embeds `UHealthComponent::HandleTakeAnyDamage(DamagedActor, Damage, DamageType,
InstigatedBy, DamageCauser)`. -/
def HandleTakeAnyDamage (c : UHealthComponent) (Damage : ℚ)
    (DamageType InstigatedBy DamageCauser : Option Nat) :
    UHealthComponent × List FOnHealthChanged :=
  if Damage ≤ 0 ∨ c.bIsDead = true then
    (c, [])
  else
    let c1 := { c with Health := FMath.Clamp (c.Health - Damage) 0 c.DefaultHealth }
    (c1, [{ Health := c1.Health, HealthDelta := Damage, DamageType := DamageType,
            InstigatedBy := InstigatedBy, DamageCauser := DamageCauser }])

/-- Embeds `UHealthComponent::GetHealth`. -/
def GetHealth (c : UHealthComponent) : ℚ := c.Health

/-- One call made on a health component after construction. -/
inductive Call where
  | beginPlay (ownerRole : Option ENetRole)
  | handleTakeAnyDamage (Damage : ℚ) (DamageType InstigatedBy DamageCauser : Option Nat)
  | onRep_Health (OldHealth : ℚ)
  deriving DecidableEq, Repr

/-- State after one call. -/
def Call.run (c : UHealthComponent) : Call → UHealthComponent
  | .beginPlay r => c.BeginPlay r
  | .handleTakeAnyDamage d t i a => (c.HandleTakeAnyDamage d t i a).1
  | .onRep_Health o => (c.OnRep_Health o).1

/-- State after a sequence of calls, oldest first. -/
def runCalls (c : UHealthComponent) (calls : List Call) : UHealthComponent :=
  calls.foldl Call.run c

end UHealthComponent

/-! ## Weapon.h / Weapon.cpp -/

/-- Engine `FVector`, with the sum of two vectors and the product with a scalar. -/
structure FVector where
  X : ℚ
  Y : ℚ
  Z : ℚ
  deriving DecidableEq, Repr

instance : Add FVector := ⟨fun a b => ⟨a.X + b.X, a.Y + b.Y, a.Z + b.Z⟩⟩

instance : HMul FVector ℚ FVector := ⟨fun a k => ⟨a.X * k, a.Y * k, a.Z * k⟩⟩

/-- The part of `FHitResult` that `Fire` reads: `GetActor()` and `ImpactPoint`.
Actors are identifiers, `none` is a null actor. -/
structure FHitResult where
  Actor : Option Nat
  ImpactPoint : FVector
  deriving DecidableEq, Repr

/-- Struct `FHitScanTrace` of `Weapon.h`. -/
structure FHitScanTrace where
  TraceEnd : FVector
  deriving DecidableEq, Repr

/-- Delegate bound to a timer: this weapon's `&AWeapon::Fire`, or anything
else registered with the world timer manager. -/
inductive FTimerDelegate where
  | AWeapon_Fire
  | Other (n : Nat)
  deriving DecidableEq, Repr

/-- One timer of the world timer manager. `Handle` is the serial number held
by the `FTimerHandle` that refers to it. -/
structure FTimerData where
  Handle : Nat
  Delegate : FTimerDelegate
  Rate : ℚ
  bLoop : Bool
  FirstDelay : ℚ
  deriving DecidableEq, Repr

/-- World timer manager (`GetWorldTimerManager()`). -/
structure FTimerManager where
  Timers : List FTimerData
  LastAssignedSerialNumber : Nat
  deriving DecidableEq, Repr

namespace FTimerManager

/-- Engine `InternalClearTimer`: removes the timer the handle refers to. -/
def InternalClearTimer (m : FTimerManager) (h : Nat) : FTimerManager :=
  { m with Timers := m.Timers.filter (fun t => t.Handle ≠ h) }

/-- Engine `ClearTimer(InHandle)`: clears the timer if the handle refers to one and
invalidates the handle (`none`). -/
def ClearTimer (m : FTimerManager) (InHandle : Option Nat) : FTimerManager × Option Nat :=
  match InHandle with
  | some h => (m.InternalClearTimer h, none)
  | none => (m, none)

/-- Engine `SetTimer(InOutHandle, Obj, Method, InRate, InbLoop, InFirstDelay)`:
a timer the handle already refers to is cleared first; when `InRate > 0` a new
timer is added under a fresh handle (first delay `InFirstDelay`, or `InRate`
when `InFirstDelay < 0`), otherwise the handle is invalidated. -/
def SetTimer (m : FTimerManager) (InOutHandle : Option Nat) (d : FTimerDelegate)
    (InRate : ℚ) (InbLoop : Bool) (InFirstDelay : ℚ) : FTimerManager × Option Nat :=
  let m1 := match InOutHandle with
    | some h => m.InternalClearTimer h
    | none => m
  if 0 < InRate then
    let serial := m1.LastAssignedSerialNumber + 1
    let t : FTimerData :=
      { Handle := serial, Delegate := d, Rate := InRate, bLoop := InbLoop,
        FirstDelay := if 0 ≤ InFirstDelay then InFirstDelay else InRate }
    ({ Timers := m1.Timers ++ [t], LastAssignedSerialNumber := serial }, some serial)
  else
    (m1, none)

/-- Whether the handle refers to a timer of the manager. -/
def TimerExists (m : FTimerManager) (h : Option Nat) : Bool :=
  m.Timers.any (fun t => some t.Handle == h)

/-- The timers of the manager that call this weapon's `Fire`. -/
def FireTimers (m : FTimerManager) : List FTimerData :=
  m.Timers.filter (fun t => t.Delegate = FTimerDelegate.AWeapon_Fire)

end FTimerManager

/-- What `Fire` and `StartFire` read from the world during one call:
the clock, the owner's pose and controller, the two random draws and the
result of the line trace on the damage channel (owner and weapon ignored). -/
structure FWorldEnv where
  TimeSeconds : ℚ
  ActorForwardVector : Nat → FVector
  ActorLocation : Nat → FVector
  InstigatorController : Nat → Option Nat
  RandRangeZ : ℚ → ℚ → ℚ
  RandRangeY : ℚ → ℚ → ℚ
  LineTraceSingleByChannel : FVector → FVector → Option FHitResult

/-- Calls a weapon makes on its collaborators. -/
inductive Effect where
  | ServerFire
  | LineTraceSingleByChannel (Start End : FVector)
  | ApplyPointDamage (DamagedActor : Option Nat) (BaseDamage : ℚ)
      (HitFromDirection : FVector) (HitInfo : FHitResult)
      (EventInstigator : Option Nat) (DamageCauser : Nat)
  | SpawnTrail (TrailEnd : FVector)
  deriving DecidableEq, Repr

/-- Members of `AWeapon`, with `GetOwner()` and `GetLocalRole()`.
`FTimeBetweenShots` is the timer handle (`none` = invalid handle). -/
structure AWeapon where
  BaseDamage : ℚ
  InitialBulletSpread : ℚ
  BulletSpreadIncreaseRate : ℚ
  BulletSpreadDecreaseRate : ℚ
  BulletSpreadCoolDownTime : ℚ
  CurrentBulletSpread : ℚ
  FTimeBetweenShots : Option Nat
  LastTimeFired : ℚ
  FireRate : ℚ
  TimeBetweenShots : ℚ
  HitScanTrace : FHitScanTrace
  Owner : Option Nat
  LocalRole : ENetRole
  deriving DecidableEq, Repr

/-- Lines 82-91 of `AWeapon::Fire`: the spread after a shot, from the spread
before it, the four spread properties and the seconds since the last shot. -/
def BulletSpreadUpdate (CurrentBulletSpread InitialBulletSpread BulletSpreadIncreaseRate
    BulletSpreadDecreaseRate BulletSpreadCoolDownTime SecondsPassedFromLastShot : ℚ) : ℚ :=
  let s :=
    if SecondsPassedFromLastShot > BulletSpreadCoolDownTime then
      CurrentBulletSpread +
        (BulletSpreadCoolDownTime - SecondsPassedFromLastShot) * BulletSpreadDecreaseRate *
          InitialBulletSpread
    else
      CurrentBulletSpread +
        (BulletSpreadCoolDownTime - SecondsPassedFromLastShot) * BulletSpreadIncreaseRate *
          InitialBulletSpread
  FMath.Clamp s InitialBulletSpread 0.1

namespace AWeapon

/-- Constructor defaults; members the constructor does not assign are zero
(object memory is zero-initialised), there is no owner, and the local role is
a parameter. -/
def construct (role : ENetRole) : AWeapon :=
  { BaseDamage := 20, InitialBulletSpread := 0.05, BulletSpreadIncreaseRate := 1.5,
    BulletSpreadDecreaseRate := 3, BulletSpreadCoolDownTime := 0.2,
    CurrentBulletSpread := 0, FTimeBetweenShots := none, LastTimeFired := 0,
    FireRate := 600, TimeBetweenShots := 0, HitScanTrace := ⟨⟨0, 0, 0⟩⟩,
    Owner := none, LocalRole := role }

/-- Embeds `AWeapon::BeginPlay`. (For `FireRate = 0` the quotient of the code is
infinite; the model is meaningful for `FireRate ≠ 0`.) -/
def BeginPlay (w : AWeapon) (TimeSeconds : ℚ) : AWeapon :=
  { w with TimeBetweenShots := 60 / w.FireRate,
           CurrentBulletSpread := w.InitialBulletSpread,
           LastTimeFired := TimeSeconds }

/-- Embeds `AWeapon::PlayEffect`: spawns the trail towards `TrailEnd`. -/
def PlayEffect (_w : AWeapon) (TrailEnd : FVector) : List Effect :=
  [Effect.SpawnTrail TrailEnd]

/-- Embeds `AWeapon::OnRep_HitScanTrace`. -/
def OnRep_HitScanTrace (w : AWeapon) : List Effect :=
  w.PlayEffect w.HitScanTrace.TraceEnd

/-- Embeds `AWeapon::Fire`. `ServerFire()` on a role below Authority is a remote call:
locally it is only sent. -/
def Fire (env : FWorldEnv) (w : AWeapon) : AWeapon × List Effect :=
  let fwd : List Effect :=
    if w.LocalRole.toNat < ENetRole.ROLE_Authority.toNat then [Effect.ServerFire] else []
  match w.Owner with
  | none => (w, fwd)
  | some MyOwner =>
    let ShootDirection0 := env.ActorForwardVector MyOwner
    let SecondsPassedFromLastShot := env.TimeSeconds - w.LastTimeFired
    let spread := BulletSpreadUpdate w.CurrentBulletSpread w.InitialBulletSpread
      w.BulletSpreadIncreaseRate w.BulletSpreadDecreaseRate w.BulletSpreadCoolDownTime
      SecondsPassedFromLastShot
    let ShootDirection1 : FVector :=
      { ShootDirection0 with Z := ShootDirection0.Z + env.RandRangeZ (-spread) spread }
    let ShootDirection : FVector :=
      { ShootDirection1 with Y := ShootDirection1.Y + env.RandRangeY (-spread) spread }
    let TraceEnd := env.ActorLocation MyOwner + ShootDirection * (10000 : ℚ)
    let cast := Effect.LineTraceSingleByChannel (env.ActorLocation MyOwner) TraceEnd
    let hit := env.LineTraceSingleByChannel (env.ActorLocation MyOwner) TraceEnd
    let TrailEnd := match hit with
      | some HitResult => HitResult.ImpactPoint
      | none => TraceEnd
    let dmg : List Effect := match hit with
      | some HitResult =>
        [Effect.ApplyPointDamage HitResult.Actor w.BaseDamage ShootDirection HitResult
          (env.InstigatorController MyOwner) MyOwner]
      | none => []
    let trace : FHitScanTrace :=
      if w.LocalRole = ENetRole.ROLE_Authority then { TraceEnd := TrailEnd } else w.HitScanTrace
    ({ w with CurrentBulletSpread := spread, HitScanTrace := trace,
              LastTimeFired := env.TimeSeconds },
     fwd ++ [cast] ++ dmg)

/-- Embeds `AWeapon::ServerFire_Implementation` (runs on the authoritative host). -/
def ServerFire_Implementation (env : FWorldEnv) (w : AWeapon) : AWeapon × List Effect :=
  Fire env w

end AWeapon

/-- A weapon together with the world timer manager its handle points into. -/
structure FWeaponWorld where
  Weapon : AWeapon
  TimerManager : FTimerManager
  deriving DecidableEq, Repr

namespace AWeapon

/-- Embeds `AWeapon::StartFire`. -/
def StartFire (env : FWorldEnv) (s : FWeaponWorld) : FWeaponWorld × List Effect :=
  let FireDelay :=
    FMath.Max (s.Weapon.LastTimeFired + s.Weapon.TimeBetweenShots - env.TimeSeconds) 0
  let r := Fire env s.Weapon
  let t := s.TimerManager.SetTimer r.1.FTimeBetweenShots FTimerDelegate.AWeapon_Fire
    r.1.TimeBetweenShots true FireDelay
  ({ Weapon := { r.1 with FTimeBetweenShots := t.2 }, TimerManager := t.1 }, r.2)

/-- Embeds `AWeapon::StopFire`. -/
def StopFire (s : FWeaponWorld) : FWeaponWorld :=
  let t := s.TimerManager.ClearTimer s.Weapon.FTimeBetweenShots
  { Weapon := { s.Weapon with FTimeBetweenShots := t.2 }, TimerManager := t.1 }

/-- State after consecutive `StartFire` calls, one environment per call. -/
def StartFireN (s : FWeaponWorld) (envs : List FWorldEnv) : FWeaponWorld :=
  envs.foldl (fun st env => (StartFire env st).1) s

end AWeapon

/-! ## MyProjectCharacter.cpp (weapon entry points) -/

namespace AMyProjectCharacter

/-- Embeds `AMyProjectCharacter::StartFire`: `CurrentWeapon` is `none` when no weapon
is bound. -/
def StartFire (env : FWorldEnv) (CurrentWeapon : Option FWeaponWorld) :
    Option FWeaponWorld × List Effect :=
  match CurrentWeapon with
  | some s => (some (AWeapon.StartFire env s).1, (AWeapon.StartFire env s).2)
  | none => (none, [])

/-- Embeds `AMyProjectCharacter::StopFire`. -/
def StopFire (CurrentWeapon : Option FWeaponWorld) : Option FWeaponWorld :=
  match CurrentWeapon with
  | some s => some (AWeapon.StopFire s)
  | none => none

end AMyProjectCharacter

/-! ## Derived notions used in the statements -/

/-- The health bounds, with the maximum non-negative. -/
def UHealthComponent.Bounded (c : UHealthComponent) : Prop :=
  0 ≤ c.DefaultHealth ∧ 0 ≤ c.Health ∧ c.Health ≤ c.DefaultHealth

/-- Engine delivery of one `ApplyPointDamage` call to the health component of
actor `owner`: `UGameplayStatics::ApplyPointDamage` does nothing for a null
actor or a zero damage, otherwise the actor's `OnTakeAnyDamage` delegate is
broadcast and calls `HandleTakeAnyDamage` when the component is bound to it.
The damage type is the default damage type object (identifier 0). -/
def UHealthComponent.TakePointDamage (owner : Nat) (c : UHealthComponent) :
    Effect → UHealthComponent
  | .ApplyPointDamage (some a) dmg _ _ inst causer =>
    if a = owner ∧ dmg ≠ 0 ∧ c.bBound = true then
      (c.HandleTakeAnyDamage dmg (some 0) inst (some causer)).1
    else c
  | _ => c

namespace Effect

/-- The call is a forwarded fire request. -/
def isServerFire : Effect → Bool
  | .ServerFire => true
  | _ => false

/-- The call is a ray cast. -/
def isRayCast : Effect → Bool
  | .LineTraceSingleByChannel _ _ => true
  | _ => false

/-- The call applies damage. -/
def isDamage : Effect → Bool
  | .ApplyPointDamage _ _ _ _ _ _ => true
  | _ => false

end Effect

namespace AWeapon

/-- The local role is below `ROLE_Authority`. -/
def NotAuthority (w : AWeapon) : Prop :=
  w.LocalRole.toNat < ENetRole.ROLE_Authority.toNat

/-- The owner's forward vector perturbed on Z and Y by the two random draws
within the spread `spread`. -/
def ShotDirection (env : FWorldEnv) (owner : Nat) (spread : ℚ) : FVector :=
  { X := (env.ActorForwardVector owner).X,
    Y := (env.ActorForwardVector owner).Y + env.RandRangeY (-spread) spread,
    Z := (env.ActorForwardVector owner).Z + env.RandRangeZ (-spread) spread }

/-- End of the ray: the owner's location plus the shot direction times the
range 10000. -/
def RayEnd (env : FWorldEnv) (owner : Nat) (spread : ℚ) : FVector :=
  env.ActorLocation owner + ShotDirection env owner spread * (10000 : ℚ)

/-- The weapon states after each of a sequence of shots, one environment per
shot. -/
def FireN (w : AWeapon) : List FWorldEnv → List AWeapon
  | [] => []
  | e :: es => (Fire e w).1 :: FireN (Fire e w).1 es

/-- Every shot of the sequence comes less than the cooldown after the shot
before it. -/
def AllFast (w : AWeapon) : List FWorldEnv → Prop
  | [] => True
  | e :: es =>
    e.TimeSeconds - w.LastTimeFired < w.BulletSpreadCoolDownTime ∧ AllFast (Fire e w).1 es

end AWeapon

namespace FWeaponWorld

/-- A repeating fire schedule is active: the weapon's handle refers to a timer
of the manager. -/
def ScheduleActive (s : FWeaponWorld) : Prop :=
  s.TimerManager.TimerExists s.Weapon.FTimeBetweenShots = true

/-- Every timer of the manager that calls this weapon's `Fire` is the one the
weapon's handle refers to. Holds when no such timer exists yet and is kept by
`StartFire`, `StopFire` and `Fire`. -/
def WellFormed (s : FWeaponWorld) : Prop :=
  ∀ t ∈ s.TimerManager.Timers, t.Delegate = FTimerDelegate.AWeapon_Fire →
    s.Weapon.FTimeBetweenShots = some t.Handle

end FWeaponWorld

/-! ## Concrete inputs -/

/-- An environment at time `t` in which the owner stands at the origin facing
along X, both random draws are 0 and the ray cast returns `hit`. -/
def sampleEnv (t : ℚ) (hit : Option FHitResult) : FWorldEnv :=
  { TimeSeconds := t,
    ActorForwardVector := fun _ => ⟨1, 0, 0⟩,
    ActorLocation := fun _ => ⟨0, 0, 0⟩,
    InstigatorController := fun _ => some 7,
    RandRangeZ := fun _ _ => 0,
    RandRangeY := fun _ _ => 0,
    LineTraceSingleByChannel := fun _ _ => hit }

/-- A weapon with the constructor defaults after `BeginPlay` at time 0, held
by actor 1. -/
def sampleWeapon (role : ENetRole) : AWeapon :=
  { (AWeapon.construct role).BeginPlay 0 with Owner := some 1 }

/-- A hit on actor 5 at the point (300, 0, 0). -/
def sampleHit : FHitResult :=
  { Actor := some 5, ImpactPoint := ⟨300, 0, 0⟩ }

/-- The sample weapon in a world without timers. -/
def sampleWorld (role : ENetRole) : FWeaponWorld :=
  { Weapon := sampleWeapon role, TimerManager := ⟨[], 0⟩ }

/-- The authoritative sample weapon while firing: the state one `StartFire`
call at time 0 leaves (the handle refers to the looping timer 1). -/
def firingWorld : FWeaponWorld :=
  (AWeapon.StartFire (sampleEnv 0 none) (sampleWorld ENetRole.ROLE_Authority)).1

/-- A weapon whose initial spread 0.2 is above the hard cap, after `BeginPlay`
at time 0, held by actor 1. -/
def wideWeapon : AWeapon :=
  { ({ AWeapon.construct ENetRole.ROLE_Authority with InitialBulletSpread := 0.2 }
      ).BeginPlay 0 with Owner := some 1 }

/-- A weapon with the negative fire rate -600, after `BeginPlay` at time 0,
held by actor 1, in a world without timers. -/
def negativeRateWorld : FWeaponWorld :=
  { Weapon := { ({ AWeapon.construct ENetRole.ROLE_Authority with FireRate := -600 }
      ).BeginPlay 0 with Owner := some 1 },
    TimerManager := ⟨[], 0⟩ }

/-! ## Helper lemmas -/

theorem FVector.add_def (a b : FVector) : a + b = ⟨a.X + b.X, a.Y + b.Y, a.Z + b.Z⟩ := rfl

theorem FVector.mul_def (a : FVector) (k : ℚ) : a * k = ⟨a.X * k, a.Y * k, a.Z * k⟩ := rfl

theorem FMath.Clamp_ge (X Min Max : ℚ) (h : Min ≤ Max) : Min ≤ FMath.Clamp X Min Max := by
  unfold FMath.Clamp
  split_ifs with h1 h2
  · exact le_refl _
  · exact not_lt.mp h1
  · exact h

theorem FMath.Clamp_le (X Min Max : ℚ) (h : Min ≤ Max) : FMath.Clamp X Min Max ≤ Max := by
  unfold FMath.Clamp
  split_ifs with h1 h2
  · exact h
  · exact le_of_lt h2
  · exact le_refl _

theorem FMath.Clamp_eq_max_min (X Min Max : ℚ) (h : Min ≤ Max) :
    FMath.Clamp X Min Max = max Min (min X Max) := by
  unfold FMath.Clamp
  split_ifs with h1 h2
  · rw [max_eq_left]
    exact le_trans (min_le_left _ _) (le_of_lt h1)
  · rw [min_eq_left (le_of_lt h2), max_eq_right (not_lt.mp h1)]
  · rw [min_eq_right (not_lt.mp h2), max_eq_right h]

theorem UHealthComponent.Bounded_run (c : UHealthComponent) (k : UHealthComponent.Call)
    (h : c.Bounded) : (UHealthComponent.Call.run c k).Bounded := by
  obtain ⟨hm, h0, h1⟩ := h
  cases k with
  | beginPlay r =>
    cases r with
    | none => exact ⟨hm, hm, le_refl _⟩
    | some r =>
      simp only [UHealthComponent.Call.run, UHealthComponent.BeginPlay]
      split_ifs <;> exact ⟨hm, hm, le_refl _⟩
  | handleTakeAnyDamage d t i a =>
    simp only [UHealthComponent.Call.run, UHealthComponent.HandleTakeAnyDamage]
    split_ifs
    · exact ⟨hm, h0, h1⟩
    · exact ⟨hm, FMath.Clamp_ge _ _ _ hm, FMath.Clamp_le _ _ _ hm⟩
  | onRep_Health o => exact ⟨hm, h0, h1⟩

theorem UHealthComponent.Bounded_runCalls (calls : List UHealthComponent.Call)
    (c : UHealthComponent) (h : c.Bounded) : (c.runCalls calls).Bounded := by
  induction calls generalizing c with
  | nil => exact h
  | cons k ks ih => exact ih _ (UHealthComponent.Bounded_run c k h)

theorem UHealthComponent.DefaultHealth_runCalls (calls : List UHealthComponent.Call)
    (c : UHealthComponent) : (c.runCalls calls).DefaultHealth = c.DefaultHealth := by
  induction calls generalizing c with
  | nil => rfl
  | cons k ks ih =>
    have hk : (UHealthComponent.Call.run c k).DefaultHealth = c.DefaultHealth := by
      cases k with
      | beginPlay r =>
        cases r with
        | none => rfl
        | some r =>
          simp only [UHealthComponent.Call.run, UHealthComponent.BeginPlay]
          split_ifs <;> rfl
      | handleTakeAnyDamage d t i a =>
        simp only [UHealthComponent.Call.run, UHealthComponent.HandleTakeAnyDamage]
        split_ifs <;> rfl
      | onRep_Health o => rfl
    exact (ih _).trans hk

/-! ## Health component: claims C1 - C3 -/

/-- C1: `HandleTakeAnyDamage` with a positive damage on a component that is not
dead sets the health to `FMath::Clamp(Health - Damage, 0, DefaultHealth)`; with
a damage that is zero or negative it leaves the health as it was. -/
theorem C1_HandleTakeAnyDamage_health (h m d : ℚ) (dead bound : Bool)
    (t i a : Option Nat) :
    (0 < d ∧ dead = false →
      (UHealthComponent.HandleTakeAnyDamage ⟨m, h, dead, bound⟩ d t i a).1.Health
        = FMath.Clamp (h - d) 0 m) ∧
    (d ≤ 0 →
      (UHealthComponent.HandleTakeAnyDamage ⟨m, h, dead, bound⟩ d t i a).1.Health = h) := by
  constructor
  · rintro ⟨hd, hdead⟩
    have hn : ¬ (d ≤ 0 ∨ dead = true) := by
      rintro (h1 | h1)
      · exact absurd hd (not_lt.mpr h1)
      · rw [hdead] at h1; exact Bool.noConfusion h1
    simp only [UHealthComponent.HandleTakeAnyDamage, if_neg hn]
  · intro hd
    have hp : d ≤ 0 ∨ dead = true := Or.inl hd
    simp only [UHealthComponent.HandleTakeAnyDamage, if_pos hp]

/-- Witness of C1: damage 20 on health 100 of 100 gives the clamp of 80, and
damage -5 leaves health 100. -/
theorem C1_witness_damage_20_and_minus_5 :
    (UHealthComponent.HandleTakeAnyDamage ⟨100, 100, false, true⟩ 20 none none none).1.Health
        = FMath.Clamp (100 - 20) 0 100 ∧
    (UHealthComponent.HandleTakeAnyDamage ⟨100, 100, false, true⟩ (-5) none none none).1.Health
        = 100 :=
  ⟨(C1_HandleTakeAnyDamage_health 100 100 20 false true none none none).1
      ⟨by norm_num, rfl⟩,
   (C1_HandleTakeAnyDamage_health 100 100 (-5) false true none none none).2 (by norm_num)⟩

/-- C2: in every state reached from the constructor by any sequence of
`BeginPlay`, `HandleTakeAnyDamage` and `OnRep_Health` calls, the health lies
between 0 and the maximum health (which stays 100). -/
theorem C2_health_invariant (isDead : Bool) (calls : List UHealthComponent.Call) :
    0 ≤ ((UHealthComponent.construct isDead).runCalls calls).Health ∧
    ((UHealthComponent.construct isDead).runCalls calls).Health
      ≤ ((UHealthComponent.construct isDead).runCalls calls).DefaultHealth ∧
    ((UHealthComponent.construct isDead).runCalls calls).DefaultHealth = 100 := by
  have hb : (UHealthComponent.construct isDead).Bounded := by
    refine ⟨?_, ?_, ?_⟩ <;> simp [UHealthComponent.construct]
  have h := UHealthComponent.Bounded_runCalls calls _ hb
  exact ⟨h.2.1, h.2.2, UHealthComponent.DefaultHealth_runCalls calls _⟩

/-- C3 (the code at the failing input): a component spawned on the authority
at 100 of 100 takes damage 100 and reaches health 0; its dead flag is still
false, and a further damage of 10 keeps the health at 0 but broadcasts
`OnHealthChanged` again. -/
theorem C3_damage_after_zero_still_notifies :
    (((UHealthComponent.construct false).BeginPlay (some ENetRole.ROLE_Authority)
        ).HandleTakeAnyDamage 100 (some 0) (some 1) (some 2)).1
      = ⟨100, 0, false, true⟩ ∧
    UHealthComponent.HandleTakeAnyDamage ⟨100, 0, false, true⟩ 10 (some 0) (some 1) (some 2)
      = (⟨100, 0, false, true⟩, [⟨0, 10, some 0, some 1, some 2⟩]) := by
  constructor
  · norm_num [UHealthComponent.construct, UHealthComponent.BeginPlay,
      UHealthComponent.HandleTakeAnyDamage, FMath.Clamp]
  · norm_num [UHealthComponent.HandleTakeAnyDamage, FMath.Clamp]

/-! ## Spread: claims C4 and C5 -/

theorem BulletSpreadUpdate_bounds (cur init inc dec cool secs : ℚ) (h : init ≤ 0.1) :
    init ≤ BulletSpreadUpdate cur init inc dec cool secs ∧
    BulletSpreadUpdate cur init inc dec cool secs ≤ 0.1 :=
  ⟨FMath.Clamp_ge _ _ _ h, FMath.Clamp_le _ _ _ h⟩

theorem BulletSpreadUpdate_fast (cur init inc dec cool secs : ℚ)
    (h0 : 0 ≤ init) (hinc : 0 ≤ inc) (hlo : init ≤ cur) (hhi : cur ≤ 0.1)
    (hs : secs ≤ cool) : cur ≤ BulletSpreadUpdate cur init inc dec cool secs := by
  have hd : 0 ≤ (cool - secs) * inc * init :=
    mul_nonneg (mul_nonneg (sub_nonneg.mpr hs) hinc) h0
  unfold BulletSpreadUpdate FMath.Clamp
  rw [if_neg (not_lt.mpr hs)]
  simp only
  split_ifs with h1 h2
  · exact absurd h1 (not_lt.mpr (by linarith))
  · linarith
  · exact hhi

theorem BulletSpreadUpdate_slow (cur init inc dec cool secs : ℚ)
    (h0 : 0 ≤ init) (hdec : 0 ≤ dec) (hlo : init ≤ cur) (hhi : cur ≤ 0.1)
    (hs : cool ≤ secs) : BulletSpreadUpdate cur init inc dec cool secs ≤ cur := by
  have _hcap : init ≤ 0.1 := le_trans hlo hhi
  unfold BulletSpreadUpdate FMath.Clamp
  by_cases hgt : secs > cool
  · have hd : (cool - secs) * dec * init ≤ 0 :=
      mul_nonpos_of_nonpos_of_nonneg
        (mul_nonpos_of_nonpos_of_nonneg (sub_nonpos.mpr hs) hdec) h0
    rw [if_pos hgt]
    simp only
    split_ifs with h1 h2
    · exact hlo
    · linarith
    · linarith
  · have he : secs = cool := le_antisymm (not_lt.mp hgt) hs
    rw [if_neg hgt]
    simp only
    subst he
    split_ifs with h1 h2
    · exact hlo
    · linarith
    · linarith

theorem AWeapon.Fire_spread (env : FWorldEnv) (w : AWeapon) (o : Nat) (ho : w.Owner = some o) :
    (AWeapon.Fire env w).1.CurrentBulletSpread =
      BulletSpreadUpdate w.CurrentBulletSpread w.InitialBulletSpread
        w.BulletSpreadIncreaseRate w.BulletSpreadDecreaseRate w.BulletSpreadCoolDownTime
        (env.TimeSeconds - w.LastTimeFired) := by
  simp only [AWeapon.Fire, ho]

theorem AWeapon.Fire_params (env : FWorldEnv) (w : AWeapon) :
    (AWeapon.Fire env w).1.Owner = w.Owner ∧
    (AWeapon.Fire env w).1.InitialBulletSpread = w.InitialBulletSpread ∧
    (AWeapon.Fire env w).1.BulletSpreadIncreaseRate = w.BulletSpreadIncreaseRate ∧
    (AWeapon.Fire env w).1.BulletSpreadDecreaseRate = w.BulletSpreadDecreaseRate ∧
    (AWeapon.Fire env w).1.BulletSpreadCoolDownTime = w.BulletSpreadCoolDownTime ∧
    (AWeapon.Fire env w).1.FTimeBetweenShots = w.FTimeBetweenShots ∧
    (AWeapon.Fire env w).1.FireRate = w.FireRate ∧
    (AWeapon.Fire env w).1.TimeBetweenShots = w.TimeBetweenShots ∧
    (AWeapon.Fire env w).1.LocalRole = w.LocalRole ∧
    (AWeapon.Fire env w).1.BaseDamage = w.BaseDamage := by
  cases h : w.Owner with
  | none => simp [AWeapon.Fire, h]
  | some o => simp [AWeapon.Fire, h]

theorem AWeapon.FireN_fast (envs : List FWorldEnv) (w : AWeapon) (o : Nat)
    (ho : w.Owner = some o) (h0 : 0 ≤ w.InitialBulletSpread)
    (hinc : 0 ≤ w.BulletSpreadIncreaseRate)
    (hlo : w.InitialBulletSpread ≤ w.CurrentBulletSpread) (hhi : w.CurrentBulletSpread ≤ 0.1)
    (hf : w.AllFast envs) :
    List.Chain (fun a b : AWeapon => a.CurrentBulletSpread ≤ b.CurrentBulletSpread) w
        (w.FireN envs) ∧
    ∀ x ∈ w.FireN envs, x.CurrentBulletSpread ≤ 0.1 := by
  induction envs generalizing w with
  | nil => exact ⟨List.Chain.nil, fun x hx => absurd hx (List.not_mem_nil x)⟩
  | cons e es ih =>
    obtain ⟨hfast, hrest⟩ := hf
    have hp := AWeapon.Fire_params e w
    have hsp := AWeapon.Fire_spread e w o ho
    have hi : w.InitialBulletSpread ≤ 0.1 := le_trans hlo hhi
    have hb := BulletSpreadUpdate_bounds w.CurrentBulletSpread w.InitialBulletSpread
      w.BulletSpreadIncreaseRate w.BulletSpreadDecreaseRate w.BulletSpreadCoolDownTime
      (e.TimeSeconds - w.LastTimeFired) hi
    have hup := BulletSpreadUpdate_fast w.CurrentBulletSpread w.InitialBulletSpread
      w.BulletSpreadIncreaseRate w.BulletSpreadDecreaseRate w.BulletSpreadCoolDownTime
      (e.TimeSeconds - w.LastTimeFired) h0 hinc hlo hhi (le_of_lt hfast)
    rw [← hsp] at hb hup
    have hnext := ih (AWeapon.Fire e w).1 (by rw [hp.1]; exact ho) (by rw [hp.2.1]; exact h0)
      (by rw [hp.2.2.1]; exact hinc) (by rw [hp.2.1]; exact hb.1) hb.2 hrest
    refine ⟨List.Chain.cons hup hnext.1, ?_⟩
    intro x hx
    rcases List.mem_cons.mp hx with hx | hx
    · rw [hx]; exact hb.2
    · exact hnext.2 x hx

theorem AWeapon.Fire_spread_bounds (env : FWorldEnv) (w : AWeapon) (o : Nat)
    (ho : w.Owner = some o) (hi : w.InitialBulletSpread ≤ 0.1) :
    w.InitialBulletSpread ≤ (AWeapon.Fire env w).1.CurrentBulletSpread ∧
    (AWeapon.Fire env w).1.CurrentBulletSpread ≤ 0.1 := by
  rw [AWeapon.Fire_spread env w o ho]
  exact BulletSpreadUpdate_bounds _ _ _ _ _ _ hi

/-- C4 (as stated, at a concrete input): a weapon whose initial spread 0.2 is
above the hard cap fires; the spread after the shot is 0.2, which is not at
most 0.1. -/
theorem C4_counterexample_initial_above_cap :
    ¬ (wideWeapon.InitialBulletSpread
          ≤ (AWeapon.Fire (sampleEnv 1 none) wideWeapon).1.CurrentBulletSpread ∧
       (AWeapon.Fire (sampleEnv 1 none) wideWeapon).1.CurrentBulletSpread ≤ 0.1) := by
  have h : (AWeapon.Fire (sampleEnv 1 none) wideWeapon).1.CurrentBulletSpread = 0.2 := by
    norm_num [AWeapon.Fire, wideWeapon, sampleEnv, AWeapon.BeginPlay, AWeapon.construct,
      BulletSpreadUpdate, FMath.Clamp]
  rw [h]
  norm_num

/-- C4 (amended): when the initial spread is at most the hard cap 0.1, the
spread computed by a shot of `Fire` lies between the initial spread and 0.1,
whatever the spread before the shot, the rates, the cooldown and the elapsed
time. -/
theorem C4_spread_bounds (env : FWorldEnv) (w : AWeapon) (o : Nat)
    (ho : w.Owner = some o) (hi : w.InitialBulletSpread ≤ 0.1) :
    w.InitialBulletSpread ≤ (AWeapon.Fire env w).1.CurrentBulletSpread ∧
    (AWeapon.Fire env w).1.CurrentBulletSpread ≤ 0.1 :=
  AWeapon.Fire_spread_bounds env w o ho hi

/-- Witness of C4: the sample weapon (initial spread 0.05) fired at time 5. -/
theorem C4_witness_sample_weapon :
    (sampleWeapon ENetRole.ROLE_Authority).InitialBulletSpread
      ≤ (AWeapon.Fire (sampleEnv 5 none) (sampleWeapon ENetRole.ROLE_Authority)
          ).1.CurrentBulletSpread ∧
    (AWeapon.Fire (sampleEnv 5 none) (sampleWeapon ENetRole.ROLE_Authority)
          ).1.CurrentBulletSpread ≤ 0.1 :=
  C4_spread_bounds (sampleEnv 5 none) (sampleWeapon ENetRole.ROLE_Authority) 1 rfl
    (by norm_num [sampleWeapon, AWeapon.BeginPlay, AWeapon.construct])

/-- C5: for a weapon whose spread lies between its initial spread and 0.1, with
non-negative initial spread and rates, a shot less than the cooldown after the
last one does not decrease the spread and keeps it at most 0.1; a shot at
least the cooldown after the last one does not increase the spread and keeps
it at least the initial spread; and along any sequence of shots that are all
fast the spread is non-decreasing and at most 0.1. -/
theorem C5_spread_direction (env : FWorldEnv) (envs : List FWorldEnv) (w : AWeapon) (o : Nat)
    (ho : w.Owner = some o) (h0 : 0 ≤ w.InitialBulletSpread)
    (hinc : 0 ≤ w.BulletSpreadIncreaseRate) (hdec : 0 ≤ w.BulletSpreadDecreaseRate)
    (hlo : w.InitialBulletSpread ≤ w.CurrentBulletSpread)
    (hhi : w.CurrentBulletSpread ≤ 0.1) :
    (env.TimeSeconds - w.LastTimeFired < w.BulletSpreadCoolDownTime →
      w.CurrentBulletSpread ≤ (AWeapon.Fire env w).1.CurrentBulletSpread ∧
      (AWeapon.Fire env w).1.CurrentBulletSpread ≤ 0.1) ∧
    (w.BulletSpreadCoolDownTime ≤ env.TimeSeconds - w.LastTimeFired →
      (AWeapon.Fire env w).1.CurrentBulletSpread ≤ w.CurrentBulletSpread ∧
      w.InitialBulletSpread ≤ (AWeapon.Fire env w).1.CurrentBulletSpread) ∧
    (w.AllFast envs →
      List.Chain (fun a b : AWeapon => a.CurrentBulletSpread ≤ b.CurrentBulletSpread) w
          (w.FireN envs) ∧
      ∀ x ∈ w.FireN envs, x.CurrentBulletSpread ≤ 0.1) := by
  have hi : w.InitialBulletSpread ≤ 0.1 := le_trans hlo hhi
  have hb := AWeapon.Fire_spread_bounds env w o ho hi
  refine ⟨fun hfast => ⟨?_, hb.2⟩, fun hslow => ⟨?_, hb.1⟩, ?_⟩
  · rw [AWeapon.Fire_spread env w o ho]
    exact BulletSpreadUpdate_fast _ _ _ _ _ _ h0 hinc hlo hhi (le_of_lt hfast)
  · rw [AWeapon.Fire_spread env w o ho]
    exact BulletSpreadUpdate_slow _ _ _ _ _ _ h0 hdec hlo hhi hslow
  · exact AWeapon.FireN_fast envs w o ho h0 hinc hlo hhi

/-- Witness of C5: the sample weapon (spread 0.05 of initial 0.05) fired 0.1 s
after its last shot, cooldown 0.2 s. -/
theorem C5_witness_fast_shot :
    (sampleWeapon ENetRole.ROLE_Authority).CurrentBulletSpread
      ≤ (AWeapon.Fire (sampleEnv (1 / 10) none) (sampleWeapon ENetRole.ROLE_Authority)
          ).1.CurrentBulletSpread ∧
    (AWeapon.Fire (sampleEnv (1 / 10) none) (sampleWeapon ENetRole.ROLE_Authority)
          ).1.CurrentBulletSpread ≤ 0.1 :=
  (C5_spread_direction (sampleEnv (1 / 10) none) [sampleEnv (1 / 10) none]
      (sampleWeapon ENetRole.ROLE_Authority) 1 rfl
      (by norm_num [sampleWeapon, AWeapon.BeginPlay, AWeapon.construct])
      (by norm_num [sampleWeapon, AWeapon.BeginPlay, AWeapon.construct])
      (by norm_num [sampleWeapon, AWeapon.BeginPlay, AWeapon.construct])
      (by norm_num [sampleWeapon, AWeapon.BeginPlay, AWeapon.construct])
      (by norm_num [sampleWeapon, AWeapon.BeginPlay, AWeapon.construct])).1
    (by norm_num [sampleWeapon, sampleEnv, AWeapon.BeginPlay, AWeapon.construct])

/-! ## Timer manager lemmas -/

theorem FTimerManager.SetTimer_wellFormed (m : FTimerManager) (h : Option Nat)
    (rate : ℚ) (loop : Bool) (fd : ℚ)
    (hw : ∀ t ∈ m.Timers, t.Delegate = FTimerDelegate.AWeapon_Fire → h = some t.Handle) :
    ∀ t ∈ (m.SetTimer h FTimerDelegate.AWeapon_Fire rate loop fd).1.Timers,
      t.Delegate = FTimerDelegate.AWeapon_Fire →
        (m.SetTimer h FTimerDelegate.AWeapon_Fire rate loop fd).2 = some t.Handle := by
  have hclear : ∀ t ∈ (match h with
      | some k => m.InternalClearTimer k
      | none => m).Timers, t.Delegate ≠ FTimerDelegate.AWeapon_Fire := by
    intro t ht hd
    cases h with
    | none => exact Option.noConfusion (hw t ht hd)
    | some k =>
      simp only [FTimerManager.InternalClearTimer, List.mem_filter, decide_eq_true_eq] at ht
      exact ht.2 (Option.some.inj (hw t ht.1 hd)).symm
  intro t ht hd
  unfold FTimerManager.SetTimer at ht ⊢
  by_cases hr : 0 < rate
  · simp only [if_pos hr, List.mem_append, List.mem_singleton] at ht ⊢
    rcases ht with ht | ht
    · exact absurd hd (hclear t ht)
    · rw [ht]
  · simp only [if_neg hr] at ht
    exact absurd hd (hclear t ht)

theorem FTimerManager.SetTimer_fireTimers (m : FTimerManager) (h : Option Nat)
    (rate : ℚ) (loop : Bool) (fd : ℚ)
    (hw : ∀ t ∈ m.Timers, t.Delegate = FTimerDelegate.AWeapon_Fire → h = some t.Handle)
    (hr : 0 < rate) :
    ∃ t, (m.SetTimer h FTimerDelegate.AWeapon_Fire rate loop fd).1.FireTimers = [t] ∧
      (m.SetTimer h FTimerDelegate.AWeapon_Fire rate loop fd).2 = some t.Handle ∧
      t.Rate = rate ∧ t.bLoop = loop ∧ t.FirstDelay = (if 0 ≤ fd then fd else rate) := by
  have hclear : (match h with
      | some k => m.InternalClearTimer k
      | none => m).Timers.filter
        (fun t : FTimerData => decide (t.Delegate = FTimerDelegate.AWeapon_Fire)) = [] := by
    rw [List.filter_eq_nil_iff]
    intro t ht
    simp only [decide_eq_true_eq]
    intro hd
    cases h with
    | none => exact Option.noConfusion (hw t ht hd)
    | some k =>
      simp only [FTimerManager.InternalClearTimer, List.mem_filter, decide_eq_true_eq] at ht
      exact ht.2 (Option.some.inj (hw t ht.1 hd)).symm
  unfold FTimerManager.SetTimer FTimerManager.FireTimers
  simp only [if_pos hr, List.filter_append, hclear, List.nil_append]
  exact ⟨⟨_, FTimerDelegate.AWeapon_Fire, rate, loop, if 0 ≤ fd then fd else rate⟩,
    rfl, rfl, rfl, rfl, rfl⟩

theorem FTimerManager.SetTimer_mem (m : FTimerManager) (h : Option Nat)
    (d : FTimerDelegate) (rate : ℚ) (loop : Bool) (fd : ℚ) (hr : 0 < rate) :
    ∃ t ∈ (m.SetTimer h d rate loop fd).1.Timers,
      (m.SetTimer h d rate loop fd).2 = some t.Handle ∧ t.Delegate = d ∧
      t.Rate = rate ∧ t.bLoop = loop ∧ t.FirstDelay = (if 0 ≤ fd then fd else rate) := by
  unfold FTimerManager.SetTimer
  simp only [if_pos hr]
  exact ⟨⟨_, d, rate, loop, if 0 ≤ fd then fd else rate⟩,
    List.mem_append_right _ (List.mem_singleton_self _), rfl, rfl, rfl, rfl, rfl⟩

theorem FMath.Max_nonneg (A : ℚ) : 0 ≤ FMath.Max A 0 := by
  unfold FMath.Max
  split_ifs with h
  · exact le_of_lt h
  · exact le_refl _

/-! ## StartFire / StopFire lemmas -/

theorem AWeapon.StartFire_wellFormed (env : FWorldEnv) (s : FWeaponWorld)
    (hwf : s.WellFormed) : (AWeapon.StartFire env s).1.WellFormed := by
  have hp := AWeapon.Fire_params env s.Weapon
  have hw : ∀ t ∈ s.TimerManager.Timers, t.Delegate = FTimerDelegate.AWeapon_Fire →
      (AWeapon.Fire env s.Weapon).1.FTimeBetweenShots = some t.Handle := by
    rw [hp.2.2.2.2.2.1]
    exact hwf
  exact FTimerManager.SetTimer_wellFormed s.TimerManager _ _ true _ hw

theorem AWeapon.StartFire_rate (env : FWorldEnv) (s : FWeaponWorld) :
    (AWeapon.StartFire env s).1.Weapon.TimeBetweenShots = s.Weapon.TimeBetweenShots ∧
    (AWeapon.StartFire env s).1.Weapon.FireRate = s.Weapon.FireRate :=
  ⟨(AWeapon.Fire_params env s.Weapon).2.2.2.2.2.2.2.1,
   (AWeapon.Fire_params env s.Weapon).2.2.2.2.2.2.1⟩

theorem AWeapon.StartFire_fireTimers (env : FWorldEnv) (s : FWeaponWorld)
    (hwf : s.WellFormed) (hr : 0 < s.Weapon.TimeBetweenShots) :
    ∃ t, (AWeapon.StartFire env s).1.TimerManager.FireTimers = [t] ∧
      (AWeapon.StartFire env s).1.Weapon.FTimeBetweenShots = some t.Handle ∧
      t.Rate = s.Weapon.TimeBetweenShots ∧ t.bLoop = true := by
  have hp := AWeapon.Fire_params env s.Weapon
  have hw : ∀ t ∈ s.TimerManager.Timers, t.Delegate = FTimerDelegate.AWeapon_Fire →
      (AWeapon.Fire env s.Weapon).1.FTimeBetweenShots = some t.Handle := by
    rw [hp.2.2.2.2.2.1]
    exact hwf
  have hr1 : 0 < (AWeapon.Fire env s.Weapon).1.TimeBetweenShots := by
    rw [hp.2.2.2.2.2.2.2.1]
    exact hr
  obtain ⟨t, h1, h2, h3, h4, _⟩ := FTimerManager.SetTimer_fireTimers s.TimerManager
    (AWeapon.Fire env s.Weapon).1.FTimeBetweenShots
    (AWeapon.Fire env s.Weapon).1.TimeBetweenShots true
    (FMath.Max (s.Weapon.LastTimeFired + s.Weapon.TimeBetweenShots - env.TimeSeconds) 0) hw hr1
  exact ⟨t, h1, h2, h3.trans hp.2.2.2.2.2.2.2.1, h4⟩

theorem AWeapon.StartFireN_inv (envs : List FWorldEnv) (s : FWeaponWorld)
    (hwf : s.WellFormed) :
    (AWeapon.StartFireN s envs).WellFormed ∧
    (AWeapon.StartFireN s envs).Weapon.TimeBetweenShots = s.Weapon.TimeBetweenShots ∧
    (AWeapon.StartFireN s envs).Weapon.FireRate = s.Weapon.FireRate := by
  induction envs generalizing s with
  | nil => exact ⟨hwf, rfl, rfl⟩
  | cons e es ih =>
    have h := ih (AWeapon.StartFire e s).1 (AWeapon.StartFire_wellFormed e s hwf)
    have hr := AWeapon.StartFire_rate e s
    exact ⟨h.1, h.2.1.trans hr.1, h.2.2.trans hr.2⟩

theorem AWeapon.StartFireN_concat (s : FWeaponWorld) (envs : List FWorldEnv) (e : FWorldEnv) :
    AWeapon.StartFireN s (envs ++ [e]) = (AWeapon.StartFire e (AWeapon.StartFireN s envs)).1 := by
  simp [AWeapon.StartFireN, List.foldl_append]

theorem firingWorld_active : firingWorld.ScheduleActive := by
  norm_num [FWeaponWorld.ScheduleActive, FTimerManager.TimerExists, firingWorld,
    AWeapon.StartFire, AWeapon.Fire, sampleWorld, sampleWeapon, sampleEnv, AWeapon.BeginPlay,
    AWeapon.construct, FTimerManager.SetTimer, FMath.Max]

/-! ## Firing schedule: claims C6 and C7 -/

/-- C6 (as stated, at a concrete input): the sample weapon is firing (its
handle refers to timer 1); a `StartFire` call at time 1 performs a ray cast and
moves the last-fire timestamp from 0 to 1, so it is not a no-op. -/
theorem C6_counterexample_firing_world :
    firingWorld.ScheduleActive ∧
    (AWeapon.StartFire (sampleEnv 1 none) firingWorld).2
      = [Effect.LineTraceSingleByChannel ⟨0, 0, 0⟩ ⟨10000, 0, 0⟩] ∧
    firingWorld.Weapon.LastTimeFired = 0 ∧
    (AWeapon.StartFire (sampleEnv 1 none) firingWorld).1.Weapon.LastTimeFired = 1 ∧
    (AWeapon.StartFire (sampleEnv 1 none) firingWorld).1 ≠ firingWorld := by
  have h1 : (AWeapon.StartFire (sampleEnv 1 none) firingWorld).1.Weapon.LastTimeFired = 1 := by
    simp [AWeapon.StartFire, AWeapon.Fire, firingWorld, sampleWorld, sampleWeapon, sampleEnv]
  have h0 : firingWorld.Weapon.LastTimeFired = 0 := by
    simp [AWeapon.StartFire, AWeapon.Fire, firingWorld, sampleWorld, sampleWeapon, sampleEnv]
  refine ⟨firingWorld_active, ?_, h0, h1, ?_⟩
  · norm_num [AWeapon.StartFire, AWeapon.Fire, firingWorld, sampleWorld, sampleWeapon,
      sampleEnv, ENetRole.toNat, AWeapon.BeginPlay, AWeapon.construct, FVector.add_def,
      FVector.mul_def]
  · intro h
    rw [h, h0] at h1
    norm_num at h1

/-- C6 (amended): when a fire schedule is already active, `StartFire` (also
when reached through the character, which only checks that a weapon is bound)
is not a no-op: its calls and its changes to the weapon are those of one `Fire` call
(with an owner: one ray cast, last-fire timestamp set to now), only the timer
handle differs; and when `TimeBetweenShots > 0` the handle afterwards refers
to a looping `Fire` timer of the manager with rate `TimeBetweenShots` and first
delay `max(LastTimeFired + TimeBetweenShots - now, 0)`. -/
theorem C6_StartFire_while_firing (env : FWorldEnv) (s : FWeaponWorld)
    (_ha : s.ScheduleActive) :
    AMyProjectCharacter.StartFire env (some s)
      = (some (AWeapon.StartFire env s).1, (AWeapon.StartFire env s).2) ∧
    (AWeapon.StartFire env s).2 = (AWeapon.Fire env s.Weapon).2 ∧
    (AWeapon.StartFire env s).1.Weapon =
      { (AWeapon.Fire env s.Weapon).1 with
        FTimeBetweenShots := (AWeapon.StartFire env s).1.Weapon.FTimeBetweenShots } ∧
    (∀ o, s.Weapon.Owner = some o →
      (AWeapon.StartFire env s).1.Weapon.LastTimeFired = env.TimeSeconds ∧
      ((AWeapon.StartFire env s).2.filter Effect.isRayCast).length = 1) ∧
    (0 < s.Weapon.TimeBetweenShots →
      ∃ t ∈ (AWeapon.StartFire env s).1.TimerManager.Timers,
        (AWeapon.StartFire env s).1.Weapon.FTimeBetweenShots = some t.Handle ∧
        t.Delegate = FTimerDelegate.AWeapon_Fire ∧
        t.Rate = s.Weapon.TimeBetweenShots ∧ t.bLoop = true ∧
        t.FirstDelay =
          FMath.Max (s.Weapon.LastTimeFired + s.Weapon.TimeBetweenShots - env.TimeSeconds) 0) := by
  have hp := AWeapon.Fire_params env s.Weapon
  refine ⟨rfl, rfl, rfl, ?_, ?_⟩
  · intro o ho
    constructor
    · simp [AWeapon.StartFire, AWeapon.Fire, ho]
    · simp only [AWeapon.StartFire, AWeapon.Fire, ho]
      cases env.LineTraceSingleByChannel _ _ <;> split_ifs <;> simp [Effect.isRayCast]
  · intro hr
    have hr1 : 0 < (AWeapon.Fire env s.Weapon).1.TimeBetweenShots := by
      rw [hp.2.2.2.2.2.2.2.1]
      exact hr
    obtain ⟨t, ht, h1, h2, h3, h4, h5⟩ := FTimerManager.SetTimer_mem s.TimerManager
      (AWeapon.Fire env s.Weapon).1.FTimeBetweenShots FTimerDelegate.AWeapon_Fire
      (AWeapon.Fire env s.Weapon).1.TimeBetweenShots true
      (FMath.Max (s.Weapon.LastTimeFired + s.Weapon.TimeBetweenShots - env.TimeSeconds) 0) hr1
    rw [if_pos (FMath.Max_nonneg _)] at h5
    exact ⟨t, ht, h1, h2, h3.trans hp.2.2.2.2.2.2.2.1, h4, h5⟩

/-- Witness of C6: the firing sample weapon (owner 1), `StartFire` again at
time 1: the calls are those of one `Fire`, one ray is cast and the last-fire
timestamp becomes 1. -/
theorem C6_witness_firing_world :
    (AWeapon.StartFire (sampleEnv 1 none) firingWorld).2
      = (AWeapon.Fire (sampleEnv 1 none) firingWorld.Weapon).2 ∧
    (AWeapon.StartFire (sampleEnv 1 none) firingWorld).1.Weapon.LastTimeFired
      = (sampleEnv 1 none).TimeSeconds ∧
    ((AWeapon.StartFire (sampleEnv 1 none) firingWorld).2.filter Effect.isRayCast).length = 1 :=
  ⟨(C6_StartFire_while_firing (sampleEnv 1 none) firingWorld firingWorld_active).2.1,
   (C6_StartFire_while_firing (sampleEnv 1 none) firingWorld firingWorld_active).2.2.2.1 1 rfl⟩

/-- C7 (as stated, at a concrete input): a weapon with fire rate -600 has
`TimeBetweenShots = -0.1` after `BeginPlay`; `StartFire` passes that rate to
`SetTimer`, which sets no timer for a rate that is not positive, so after one
`StartFire` call no fire schedule is active. -/
theorem C7_counterexample_negative_rate :
    negativeRateWorld.WellFormed ∧
    (AWeapon.StartFireN negativeRateWorld [sampleEnv 0 none]).TimerManager.FireTimers = [] ∧
    ¬ ((AWeapon.StartFireN negativeRateWorld [sampleEnv 0 none]
        ).TimerManager.FireTimers.length = 1) := by
  have h : (AWeapon.StartFireN negativeRateWorld [sampleEnv 0 none]).TimerManager.FireTimers
      = [] := by
    norm_num [AWeapon.StartFireN, AWeapon.StartFire, AWeapon.Fire, negativeRateWorld, sampleEnv,
      AWeapon.BeginPlay, AWeapon.construct, FTimerManager.SetTimer, FTimerManager.FireTimers,
      BulletSpreadUpdate, FMath.Clamp, FMath.Max]
  refine ⟨?_, h, ?_⟩
  · simp [FWeaponWorld.WellFormed, negativeRateWorld]
  · rw [h]
    simp

/-- C7 (amended): for a weapon with a positive fire rate whose
`TimeBetweenShots` is `60 / FireRate` (as `BeginPlay` sets it), in a world
where every `Fire` timer is the one the weapon's handle refers to, after any
`n ≥ 1` consecutive `StartFire` calls exactly one `Fire` timer exists; it is
the one the handle refers to, it loops, and its rate is `60 / FireRate`. -/
theorem C7_StartFire_single_schedule (s : FWeaponWorld) (envs : List FWorldEnv)
    (hwf : s.WellFormed) (hne : envs ≠ []) (hrate : 0 < s.Weapon.FireRate)
    (htbs : s.Weapon.TimeBetweenShots = 60 / s.Weapon.FireRate) :
    ∃ t, (AWeapon.StartFireN s envs).TimerManager.FireTimers = [t] ∧
      (AWeapon.StartFireN s envs).Weapon.FTimeBetweenShots = some t.Handle ∧
      t.Rate = 60 / s.Weapon.FireRate ∧ t.bLoop = true := by
  rcases List.eq_nil_or_concat envs with h | ⟨L, e, h⟩
  · exact absurd h hne
  · rw [List.concat_eq_append] at h
    subst h
    have hinv := AWeapon.StartFireN_inv L s hwf
    have hpos : 0 < (AWeapon.StartFireN s L).Weapon.TimeBetweenShots := by
      rw [hinv.2.1, htbs]
      exact div_pos (by norm_num) hrate
    obtain ⟨t, h1, h2, h3, h4⟩ :=
      AWeapon.StartFire_fireTimers e (AWeapon.StartFireN s L) hinv.1 hpos
    rw [AWeapon.StartFireN_concat]
    exact ⟨t, h1, h2, by rw [h3, hinv.2.1, htbs], h4⟩

/-- Witness of C7: the sample weapon (fire rate 600) after two `StartFire`
calls. -/
theorem C7_witness_two_calls :
    ∃ t, (AWeapon.StartFireN (sampleWorld ENetRole.ROLE_Authority)
          [sampleEnv 0 none, sampleEnv 0 none]).TimerManager.FireTimers = [t] ∧
      (AWeapon.StartFireN (sampleWorld ENetRole.ROLE_Authority)
          [sampleEnv 0 none, sampleEnv 0 none]).Weapon.FTimeBetweenShots = some t.Handle ∧
      t.Rate = 60 / (sampleWorld ENetRole.ROLE_Authority).Weapon.FireRate ∧ t.bLoop = true :=
  C7_StartFire_single_schedule (sampleWorld ENetRole.ROLE_Authority)
    [sampleEnv 0 none, sampleEnv 0 none]
    (by simp [FWeaponWorld.WellFormed, sampleWorld])
    (by simp)
    (by norm_num [sampleWorld, sampleWeapon, AWeapon.BeginPlay, AWeapon.construct])
    (by norm_num [sampleWorld, sampleWeapon, AWeapon.BeginPlay, AWeapon.construct])

/-! ## Fire by role: claims C8 - C10 -/

theorem AWeapon.Fire_effects (env : FWorldEnv) (w : AWeapon) (o : Nat)
    (ho : w.Owner = some o) :
    (AWeapon.Fire env w).2 =
      (if w.LocalRole.toNat < ENetRole.ROLE_Authority.toNat then [Effect.ServerFire] else []) ++
      [Effect.LineTraceSingleByChannel (env.ActorLocation o)
        (AWeapon.RayEnd env o (AWeapon.Fire env w).1.CurrentBulletSpread)] ++
      (match env.LineTraceSingleByChannel (env.ActorLocation o)
          (AWeapon.RayEnd env o (AWeapon.Fire env w).1.CurrentBulletSpread) with
        | some hit =>
          [Effect.ApplyPointDamage hit.Actor w.BaseDamage
            (AWeapon.ShotDirection env o (AWeapon.Fire env w).1.CurrentBulletSpread) hit
            (env.InstigatorController o) o]
        | none => []) := by
  simp only [AWeapon.Fire, ho, AWeapon.RayEnd, AWeapon.ShotDirection]

theorem AWeapon.Fire_trace_authority (env : FWorldEnv) (w : AWeapon) (o : Nat)
    (ho : w.Owner = some o) (hr : w.LocalRole = ENetRole.ROLE_Authority) :
    (AWeapon.Fire env w).1.HitScanTrace.TraceEnd =
      (match env.LineTraceSingleByChannel (env.ActorLocation o)
          (AWeapon.RayEnd env o (AWeapon.Fire env w).1.CurrentBulletSpread) with
        | some hit => hit.ImpactPoint
        | none => AWeapon.RayEnd env o (AWeapon.Fire env w).1.CurrentBulletSpread) := by
  simp only [AWeapon.Fire, ho, hr, AWeapon.RayEnd, AWeapon.ShotDirection, if_true]

theorem AWeapon.Fire_trace_below (env : FWorldEnv) (w : AWeapon) (hr : w.NotAuthority) :
    (AWeapon.Fire env w).1.HitScanTrace = w.HitScanTrace := by
  have hne : w.LocalRole ≠ ENetRole.ROLE_Authority := by
    intro h
    unfold AWeapon.NotAuthority at hr
    rw [h] at hr
    exact absurd hr (lt_irrefl _)
  cases ho : w.Owner with
  | none => simp [AWeapon.Fire, ho]
  | some o => simp [AWeapon.Fire, ho, hne]

/-- C8 (as stated, at a concrete input): the sample weapon on an autonomous
proxy (role below Authority), held by actor 1, fires while the ray hits actor
5: besides forwarding `ServerFire`, `Fire` casts the ray and calls
`ApplyPointDamage` locally. -/
theorem C8_counterexample_autonomous_proxy :
    (sampleWeapon ENetRole.ROLE_AutonomousProxy).NotAuthority ∧
    (AWeapon.Fire (sampleEnv 1 (some sampleHit)) (sampleWeapon ENetRole.ROLE_AutonomousProxy)).2
      = [Effect.ServerFire,
         Effect.LineTraceSingleByChannel ⟨0, 0, 0⟩ ⟨10000, 0, 0⟩,
         Effect.ApplyPointDamage (some 5) 20 ⟨1, 0, 0⟩ sampleHit (some 7) 1] ∧
    (AWeapon.Fire (sampleEnv 1 (some sampleHit)) (sampleWeapon ENetRole.ROLE_AutonomousProxy)).2
      ≠ [Effect.ServerFire] := by
  have h : (AWeapon.Fire (sampleEnv 1 (some sampleHit))
      (sampleWeapon ENetRole.ROLE_AutonomousProxy)).2
      = [Effect.ServerFire,
         Effect.LineTraceSingleByChannel ⟨0, 0, 0⟩ ⟨10000, 0, 0⟩,
         Effect.ApplyPointDamage (some 5) 20 ⟨1, 0, 0⟩ sampleHit (some 7) 1] := by
    norm_num [AWeapon.Fire, sampleWeapon, sampleEnv, sampleHit, ENetRole.toNat,
      AWeapon.BeginPlay, AWeapon.construct, FVector.add_def, FVector.mul_def]
  refine ⟨?_, h, ?_⟩
  · simp [AWeapon.NotAuthority, sampleWeapon, AWeapon.BeginPlay, AWeapon.construct,
      ENetRole.toNat]
  · rw [h]
    simp

/-- C8 (amended): on a participant whose local role is below Authority, `Fire`
forwards exactly one `ServerFire` and leaves `HitScanTrace` as it was; without
an owner it does nothing else; with an owner it also casts one ray locally
and, when the ray hits, calls `ApplyPointDamage` once locally with
`BaseDamage`. -/
theorem C8_Fire_below_authority (env : FWorldEnv) (w : AWeapon) (hr : w.NotAuthority) :
    (AWeapon.Fire env w).2.filter Effect.isServerFire = [Effect.ServerFire] ∧
    (AWeapon.Fire env w).1.HitScanTrace = w.HitScanTrace ∧
    (w.Owner = none → AWeapon.Fire env w = (w, [Effect.ServerFire])) ∧
    (∀ o, w.Owner = some o →
      (AWeapon.Fire env w).2.filter Effect.isRayCast =
        [Effect.LineTraceSingleByChannel (env.ActorLocation o)
          (AWeapon.RayEnd env o (AWeapon.Fire env w).1.CurrentBulletSpread)] ∧
      (AWeapon.Fire env w).2.filter Effect.isDamage =
        (match env.LineTraceSingleByChannel (env.ActorLocation o)
            (AWeapon.RayEnd env o (AWeapon.Fire env w).1.CurrentBulletSpread) with
          | some hit =>
            [Effect.ApplyPointDamage hit.Actor w.BaseDamage
              (AWeapon.ShotDirection env o (AWeapon.Fire env w).1.CurrentBulletSpread) hit
              (env.InstigatorController o) o]
          | none => [])) := by
  have hlt : w.LocalRole.toNat < ENetRole.ROLE_Authority.toNat := hr
  refine ⟨?_, AWeapon.Fire_trace_below env w hr, ?_, ?_⟩
  · cases ho : w.Owner with
    | none => simp [AWeapon.Fire, ho, hlt, Effect.isServerFire]
    | some o =>
      rw [AWeapon.Fire_effects env w o ho, if_pos hlt]
      cases env.LineTraceSingleByChannel (env.ActorLocation o)
        (AWeapon.RayEnd env o (AWeapon.Fire env w).1.CurrentBulletSpread) <;>
        simp [Effect.isServerFire]
  · intro ho
    simp [AWeapon.Fire, ho, hlt]
  · intro o ho
    rw [AWeapon.Fire_effects env w o ho, if_pos hlt]
    cases env.LineTraceSingleByChannel (env.ActorLocation o)
      (AWeapon.RayEnd env o (AWeapon.Fire env w).1.CurrentBulletSpread) <;>
      simp [Effect.isRayCast, Effect.isDamage]

/-- Witness of C8: the sample weapon on an autonomous proxy. -/
theorem C8_witness_autonomous_proxy :
    (AWeapon.Fire (sampleEnv 1 (some sampleHit))
        (sampleWeapon ENetRole.ROLE_AutonomousProxy)).2.filter Effect.isServerFire
      = [Effect.ServerFire] ∧
    (AWeapon.Fire (sampleEnv 1 (some sampleHit))
        (sampleWeapon ENetRole.ROLE_AutonomousProxy)).1.HitScanTrace
      = (sampleWeapon ENetRole.ROLE_AutonomousProxy).HitScanTrace :=
  ⟨(C8_Fire_below_authority (sampleEnv 1 (some sampleHit))
      (sampleWeapon ENetRole.ROLE_AutonomousProxy)
      (by simp [AWeapon.NotAuthority, sampleWeapon, AWeapon.BeginPlay, AWeapon.construct,
        ENetRole.toNat])).1,
   (C8_Fire_below_authority (sampleEnv 1 (some sampleHit))
      (sampleWeapon ENetRole.ROLE_AutonomousProxy)
      (by simp [AWeapon.NotAuthority, sampleWeapon, AWeapon.BeginPlay, AWeapon.construct,
        ENetRole.toNat])).2.1⟩

/-- C9: on the authoritative host, for a weapon with an owner: when the ray
cast hits actor `E` at an impact point, `Fire` makes exactly one
`ApplyPointDamage` call, on `E`, with `BaseDamage`, the owner's controller as
instigator and the owner as causer, and sets `HitScanTrace.TraceEnd` to the
impact point; a bound, living health component of `E` at 100 of 100 that
receives the calls of a weapon with `BaseDamage = 20` ends at 80. When the ray
hits nothing, no damage call is made and `TraceEnd` is the owner's location
plus the perturbed direction times the range 10000. No `ServerFire` is sent. -/
theorem C9_authoritative_Fire (env : FWorldEnv) (w : AWeapon) (o : Nat)
    (hr : w.LocalRole = ENetRole.ROLE_Authority) (ho : w.Owner = some o) :
    (∀ hit E,
      env.LineTraceSingleByChannel (env.ActorLocation o)
        (AWeapon.RayEnd env o (AWeapon.Fire env w).1.CurrentBulletSpread) = some hit →
      hit.Actor = some E →
      (AWeapon.Fire env w).2.filter Effect.isDamage =
        [Effect.ApplyPointDamage (some E) w.BaseDamage
          (AWeapon.ShotDirection env o (AWeapon.Fire env w).1.CurrentBulletSpread) hit
          (env.InstigatorController o) o] ∧
      (AWeapon.Fire env w).1.HitScanTrace.TraceEnd = hit.ImpactPoint ∧
      (∀ c : UHealthComponent, c.bBound = true → c.bIsDead = false → c.Health = 100 →
        c.DefaultHealth = 100 → w.BaseDamage = 20 →
        ((AWeapon.Fire env w).2.foldl (UHealthComponent.TakePointDamage E) c).Health = 80)) ∧
    (env.LineTraceSingleByChannel (env.ActorLocation o)
        (AWeapon.RayEnd env o (AWeapon.Fire env w).1.CurrentBulletSpread) = none →
      (AWeapon.Fire env w).2.filter Effect.isDamage = [] ∧
      (AWeapon.Fire env w).1.HitScanTrace.TraceEnd =
        env.ActorLocation o +
          AWeapon.ShotDirection env o (AWeapon.Fire env w).1.CurrentBulletSpread * (10000 : ℚ)) ∧
    (AWeapon.Fire env w).2.filter Effect.isServerFire = [] := by
  have hnlt : ¬ w.LocalRole.toNat < ENetRole.ROLE_Authority.toNat := by
    rw [hr]
    exact lt_irrefl _
  have heff := AWeapon.Fire_effects env w o ho
  have htr := AWeapon.Fire_trace_authority env w o ho hr
  rw [if_neg hnlt] at heff
  refine ⟨?_, ?_, ?_⟩
  · intro hit E hhit hE
    rw [hhit] at heff htr
    simp only [List.nil_append] at heff htr
    refine ⟨?_, htr, ?_⟩
    · rw [heff, hE]
      simp [Effect.isDamage]
    · intro c hb hd hh hm hdmg
      rw [heff, hE, hdmg]
      obtain ⟨m, h, dead, bound⟩ := c
      simp only at hb hd hh hm
      subst hb hd hh hm
      norm_num [UHealthComponent.TakePointDamage, UHealthComponent.HandleTakeAnyDamage,
        FMath.Clamp]
  · intro hmiss
    rw [hmiss] at heff htr
    simp only [List.nil_append] at heff htr
    refine ⟨?_, htr⟩
    rw [heff]
    simp [Effect.isDamage]
  · rw [heff]
    cases env.LineTraceSingleByChannel (env.ActorLocation o)
      (AWeapon.RayEnd env o (AWeapon.Fire env w).1.CurrentBulletSpread) <;>
      simp [Effect.isServerFire]

/-- Witness of C9: the authoritative sample weapon (base damage 20) hits actor
5 at (300, 0, 0). -/
theorem C9_witness_hit_actor_5 :
    (AWeapon.Fire (sampleEnv 1 (some sampleHit))
        (sampleWeapon ENetRole.ROLE_Authority)).2.filter Effect.isDamage =
      [Effect.ApplyPointDamage (some 5) (sampleWeapon ENetRole.ROLE_Authority).BaseDamage
        (AWeapon.ShotDirection (sampleEnv 1 (some sampleHit)) 1
          (AWeapon.Fire (sampleEnv 1 (some sampleHit))
            (sampleWeapon ENetRole.ROLE_Authority)).1.CurrentBulletSpread)
        sampleHit ((sampleEnv 1 (some sampleHit)).InstigatorController 1) 1] ∧
    (AWeapon.Fire (sampleEnv 1 (some sampleHit))
        (sampleWeapon ENetRole.ROLE_Authority)).1.HitScanTrace.TraceEnd
      = sampleHit.ImpactPoint ∧
    ((AWeapon.Fire (sampleEnv 1 (some sampleHit)) (sampleWeapon ENetRole.ROLE_Authority)).2.foldl
        (UHealthComponent.TakePointDamage 5)
        ((UHealthComponent.construct false).BeginPlay (some ENetRole.ROLE_Authority))).Health
      = 80 :=
  have h := (C9_authoritative_Fire (sampleEnv 1 (some sampleHit))
    (sampleWeapon ENetRole.ROLE_Authority) 1 rfl rfl).1 sampleHit 5 rfl rfl
  ⟨h.1, h.2.1, h.2.2 _ rfl rfl rfl rfl
    (by norm_num [sampleWeapon, AWeapon.BeginPlay, AWeapon.construct])⟩

/-- C10: on a participant whose local role is below Authority, `Fire`,
`StartFire` and `StopFire` leave the replicated `HitScanTrace` (its `TraceEnd`)
as it was, whatever the ray cast returns. -/
theorem C10_HitScanTrace_frame (env : FWorldEnv) (s : FWeaponWorld)
    (hr : s.Weapon.NotAuthority) :
    (AWeapon.Fire env s.Weapon).1.HitScanTrace.TraceEnd = s.Weapon.HitScanTrace.TraceEnd ∧
    (AWeapon.StartFire env s).1.Weapon.HitScanTrace.TraceEnd
      = s.Weapon.HitScanTrace.TraceEnd ∧
    (AWeapon.StopFire s).Weapon.HitScanTrace.TraceEnd = s.Weapon.HitScanTrace.TraceEnd := by
  have h := AWeapon.Fire_trace_below env s.Weapon hr
  refine ⟨by rw [h], ?_, rfl⟩
  show (AWeapon.Fire env s.Weapon).1.HitScanTrace.TraceEnd = s.Weapon.HitScanTrace.TraceEnd
  rw [h]

/-- Witness of C10: the sample weapon on a simulated proxy, the ray hitting
actor 5. -/
theorem C10_witness_simulated_proxy :
    (AWeapon.Fire (sampleEnv 1 (some sampleHit))
        (sampleWorld ENetRole.ROLE_SimulatedProxy).Weapon).1.HitScanTrace.TraceEnd
      = (sampleWorld ENetRole.ROLE_SimulatedProxy).Weapon.HitScanTrace.TraceEnd ∧
    (AWeapon.StartFire (sampleEnv 1 (some sampleHit))
        (sampleWorld ENetRole.ROLE_SimulatedProxy)).1.Weapon.HitScanTrace.TraceEnd
      = (sampleWorld ENetRole.ROLE_SimulatedProxy).Weapon.HitScanTrace.TraceEnd ∧
    (AWeapon.StopFire (sampleWorld ENetRole.ROLE_SimulatedProxy)).Weapon.HitScanTrace.TraceEnd
      = (sampleWorld ENetRole.ROLE_SimulatedProxy).Weapon.HitScanTrace.TraceEnd :=
  C10_HitScanTrace_frame (sampleEnv 1 (some sampleHit))
    (sampleWorld ENetRole.ROLE_SimulatedProxy)
    (by simp [AWeapon.NotAuthority, sampleWorld, sampleWeapon, AWeapon.BeginPlay,
      AWeapon.construct, ENetRole.toNat])
